import Mathlib

/-!
Verification of the defi-monitor alerting engine (`src/alerts.py`) and the
CoinGecko fetch layer's rate-limit handling (`src/coingecko.py`), as a
shallow embedding in Lean.

Python floats are modelled as rationals (ℚ); a snapshot dictionary is a
structure of optional fields (a missing key is `none`); Python truthiness of
`d.get(k)` (false for a missing key, `None`, or `0`) is the `truthy`
predicate; a raised `KeyError` is an `Except.error`; the mutable
`self.previous_data` dictionary is an association list threaded explicitly.
Network I/O at the dispatcher / fetch boundary is parameterised by the
sequence of outcomes the environment returns.
-/

namespace DefiMonitor

/-- One entry of the `current_data` list handed to `AlertManager.check_alerts`:
a protocol snapshot dictionary.  A key the dictionary lacks is `none`. -/
structure ProtocolData where
  name : Option String
  price : Option ℚ
  tvl : Option ℚ
  apy : Option ℚ
deriving Repr, DecidableEq

/-- The `alerts` section of the configuration dictionary, with the keys
`AlertManager.__init__` reads (defaults: enabled=False, thresholds 5.0 /
10.0 / 1.0, console=True, discord_webhook=False, email=False). -/
structure AlertsConfig where
  enabled : Bool
  price_change_threshold : ℚ
  tvl_change_threshold : ℚ
  apy_change_threshold : ℚ
  console : Bool
  discord_webhook : Bool
  email : Bool
deriving Repr, DecidableEq

/-- Severity string of an alert dictionary. -/
inductive Severity where
  | HIGH
  | MEDIUM
deriving Repr, DecidableEq

/-- The `type` field of an alert dictionary. -/
inductive Metric where
  | price
  | tvl
  | apy
deriving Repr, DecidableEq

/-- One alert dictionary as built by the `_check_*_change` methods.  The
`message` string's content (direction, previous value, current value) is
carried as data; the wall-clock `timestamp` is not modelled. -/
structure Alert where
  type : Metric
  protocol : String
  severity : Severity
  increased : Bool
  prevValue : ℚ
  currValue : ℚ
deriving Repr, DecidableEq

/-- Python truthiness of `d.get(key)` for a numeric field: false when the key
is missing (`None`) or the value is `0`. -/
def truthy : Option ℚ → Bool
  | none => false
  | some v => decide (v ≠ 0)

/-- `AlertManager._check_price_change`: fires when both price fields are
truthy and the absolute percent change reaches the configured threshold;
severity HIGH at the hardcoded 10-percent cutoff. -/
def check_price_change (th : ℚ) (name : String) (prev curr : ProtocolData) :
    Option Alert :=
  if truthy prev.price && truthy curr.price then
    let p := prev.price.getD 0
    let c := curr.price.getD 0
    let change := (c - p) / p * 100
    if th ≤ |change| then
      some ⟨Metric.price, name, if 10 ≤ |change| then .HIGH else .MEDIUM,
            decide (0 < change), p, c⟩
    else none
  else none

/-- `AlertManager._check_tvl_change`: like the price check, with the
hardcoded HIGH cutoff at 20 percent. -/
def check_tvl_change (th : ℚ) (name : String) (prev curr : ProtocolData) :
    Option Alert :=
  if truthy prev.tvl && truthy curr.tvl then
    let p := prev.tvl.getD 0
    let c := curr.tvl.getD 0
    let change := (c - p) / p * 100
    if th ≤ |change| then
      some ⟨Metric.tvl, name, if 20 ≤ |change| then .HIGH else .MEDIUM,
            decide (0 < change), p, c⟩
    else none
  else none

/-- `AlertManager._check_apy_change`: absolute (point) delta, no division,
severity always MEDIUM. -/
def check_apy_change (th : ℚ) (name : String) (prev curr : ProtocolData) :
    Option Alert :=
  if truthy prev.apy && truthy curr.apy then
    let p := prev.apy.getD 0
    let c := curr.apy.getD 0
    let change := c - p
    if th ≤ |change| then
      some ⟨Metric.apy, name, Severity.MEDIUM, decide (0 < change), p, c⟩
    else none
  else none

/-- `self.previous_data`: the Python dict from protocol name to the last
snapshot, modelled as an association list in insertion order. -/
abbrev PrevData := List (String × ProtocolData)

/-- Dictionary lookup `previous_data[k]` / `k in previous_data`. -/
def lookupPrev : PrevData → String → Option ProtocolData
  | [], _ => none
  | (k', v) :: rest, k => if k' = k then some v else lookupPrev rest k

/-- Dictionary assignment `previous_data[k] = v` (replace if present, else
append), matching Python dict insertion-order semantics. -/
def insertPrev : PrevData → String → ProtocolData → PrevData
  | [], k, v => [(k, v)]
  | (k', v') :: rest, k, v =>
      if k' = k then (k, v) :: rest else (k', v') :: insertPrev rest k v

/-- The first `for protocol_data in current_data` loop of `check_alerts`:
`protocol_data['name']` raises `KeyError` when the key is missing; a name
not yet in `previous_data` is recorded as baseline and skipped; otherwise
the three metric checks run and non-`None` results are appended. -/
def checkAlertsLoop (cfg : AlertsConfig) :
    PrevData → List ProtocolData → Except String (List Alert × PrevData)
  | s, [] => Except.ok ([], s)
  | s, pd :: rest =>
    match pd.name with
    | none => Except.error "KeyError: 'name'"
    | some n =>
      match lookupPrev s n with
      | none => checkAlertsLoop cfg (insertPrev s n pd) rest
      | some prev =>
        let here := (check_price_change cfg.price_change_threshold n prev pd).toList
              ++ (check_tvl_change cfg.tvl_change_threshold n prev pd).toList
              ++ (check_apy_change cfg.apy_change_threshold n prev pd).toList
        match checkAlertsLoop cfg s rest with
        | Except.error e => Except.error e
        | Except.ok (as, s') => Except.ok (here ++ as, s')

/-- The final `for protocol_data in current_data` loop of `check_alerts`:
unconditionally overwrite the baseline of every entry (again raising
`KeyError` on a missing name key). -/
def updatePrev : PrevData → List ProtocolData → Except String PrevData
  | s, [] => Except.ok s
  | s, pd :: rest =>
    match pd.name with
    | none => Except.error "KeyError: 'name'"
    | some n => updatePrev (insertPrev s n pd) rest

/-- `AlertManager.check_alerts`: returns `[]` untouched when alerting is
disabled; otherwise runs the comparison loop and then the baseline-update
loop, propagating any `KeyError`. -/
def check_alerts (cfg : AlertsConfig) (s : PrevData)
    (current_data : List ProtocolData) :
    Except String (List Alert × PrevData) :=
  if cfg.enabled then
    match checkAlertsLoop cfg s current_data with
    | Except.error e => Except.error e
    | Except.ok (alerts, s1) =>
      match updatePrev s1 current_data with
      | Except.error e => Except.error e
      | Except.ok s2 => Except.ok (alerts, s2)
  else Except.ok ([], s)

/-- `AlertManager._send_discord_alerts`, parameterised by the outcome of each
`requests.post` (one Bool per alert, `false` meaning `raise_for_status`
throws).  Returns the method's Bool result and the number of HTTP calls
actually made: the `try` wraps the whole loop, so the first failing call
aborts the remaining ones. -/
def send_discord_alerts : List Bool → Bool × Nat
  | [] => (true, 0)
  | ok :: rest =>
    if ok then
      let r := send_discord_alerts rest
      (r.1, r.2 + 1)
    else (false, 1)

/-- `AlertManager.send_alerts`, parameterised by the environment-configured
webhook URL and recipient address and by the channel I/O outcomes
(`discordCalls`: one outcome per alert for the webhook loop; `emailOk`: the
result of `_send_email_alerts`).  Returns the delivered count. -/
def send_alerts (cfg : AlertsConfig) (webhookUrl emailTo : String)
    (discordCalls : List Bool) (emailOk : Bool) (alerts : List Alert) : Nat :=
  if alerts.isEmpty then 0
  else
    (if cfg.console = true then alerts.length else 0)
    + (if cfg.discord_webhook = true ∧ webhookUrl ≠ "" then
         if (send_discord_alerts discordCalls).1 = true then alerts.length else 0
       else 0)
    + (if cfg.email = true ∧ emailTo ≠ "" then
         if emailOk = true then alerts.length else 0
       else 0)

/-- One category of upstream HTTP response to `CoinGeckoAPI._make_request`:
a 429, some other error status (`raise_for_status` throws, caught, `None`
returned), or a successful JSON response. -/
inductive UpstreamResp where
  | rateLimited
  | httpError
  | okJson
deriving Repr, DecidableEq

/-- Terminal outcome of `_make_request` over a finite response stream:
`success` (JSON returned), `failure` (`None` returned), or `exhausted` (the
stream ended while the method was still recursing on 429s — the call has
not returned). -/
inductive FetchOutcome where
  | success
  | failure
  | exhausted
deriving Repr, DecidableEq

/-- `CoinGeckoAPI._make_request` run against a finite stream of upstream
responses, returning the outcome and how many HTTP requests were issued.
Each 429 sleeps 60 s and recurses on the remaining stream. -/
def make_request : List UpstreamResp → FetchOutcome × Nat
  | [] => (FetchOutcome.exhausted, 0)
  | UpstreamResp.rateLimited :: rest =>
    let r := make_request rest
    (r.1, r.2 + 1)
  | UpstreamResp.httpError :: _ => (FetchOutcome.failure, 1)
  | UpstreamResp.okJson :: _ => (FetchOutcome.success, 1)

end DefiMonitor

namespace DefiMonitor

/-! Dictionary lemmas for the `previous_data` association list. -/

theorem lookupPrev_insertPrev_self (s : PrevData) (k : String) (v : ProtocolData) :
    lookupPrev (insertPrev s k v) k = some v := by
  induction s with
  | nil => simp [insertPrev, lookupPrev]
  | cons hd tl ih =>
    obtain ⟨k', v'⟩ := hd
    by_cases h : k' = k
    · simp [insertPrev, h, lookupPrev]
    · simp [insertPrev, h, lookupPrev, ih]

theorem lookupPrev_insertPrev_ne (s : PrevData) (k k' : String) (v : ProtocolData)
    (h : k' ≠ k) : lookupPrev (insertPrev s k v) k' = lookupPrev s k' := by
  induction s with
  | nil => simp [insertPrev, lookupPrev, Ne.symm h]
  | cons hd tl ih =>
    obtain ⟨a, b⟩ := hd
    by_cases hak : a = k
    · subst hak
      simp [insertPrev, lookupPrev, Ne.symm h]
    · simp [insertPrev, hak, lookupPrev, ih]

/-! Each metric check stamps the alert with the protocol name it was given. -/

theorem check_price_change_protocol (th : ℚ) (n : String) (p c : ProtocolData)
    (a : Alert) (h : check_price_change th n p c = some a) : a.protocol = n := by
  simp only [check_price_change] at h
  split at h
  · split at h
    · cases h; rfl
    · cases h
  · cases h

theorem check_tvl_change_protocol (th : ℚ) (n : String) (p c : ProtocolData)
    (a : Alert) (h : check_tvl_change th n p c = some a) : a.protocol = n := by
  simp only [check_tvl_change] at h
  split at h
  · split at h
    · cases h; rfl
    · cases h
  · cases h

theorem check_apy_change_protocol (th : ℚ) (n : String) (p c : ProtocolData)
    (a : Alert) (h : check_apy_change th n p c = some a) : a.protocol = n := by
  simp only [check_apy_change] at h
  split at h
  · split at h
    · cases h; rfl
    · cases h
  · cases h

/-! Comparing a snapshot against itself never fires when the threshold is
positive: the delta is zero. -/

theorem check_price_change_self (th : ℚ) (n : String) (e : ProtocolData)
    (h : 0 < th) : check_price_change th n e e = none := by
  simp only [check_price_change]
  split
  · rw [show (e.price.getD 0 - e.price.getD 0) / e.price.getD 0 * 100 = (0:ℚ) by ring]
    rw [abs_zero, if_neg (not_le.mpr h)]
  · rfl

theorem check_tvl_change_self (th : ℚ) (n : String) (e : ProtocolData)
    (h : 0 < th) : check_tvl_change th n e e = none := by
  simp only [check_tvl_change]
  split
  · rw [show (e.tvl.getD 0 - e.tvl.getD 0) / e.tvl.getD 0 * 100 = (0:ℚ) by ring]
    rw [abs_zero, if_neg (not_le.mpr h)]
  · rfl

theorem check_apy_change_self (th : ℚ) (n : String) (e : ProtocolData)
    (h : 0 < th) : check_apy_change th n e e = none := by
  simp only [check_apy_change]
  split
  · rw [show e.apy.getD 0 - e.apy.getD 0 = (0:ℚ) by ring]
    rw [abs_zero, if_neg (not_le.mpr h)]
  · rfl

end DefiMonitor

namespace DefiMonitor

/-- C3 counterexample: with two alert events whose webhook calls would go
fail-then-succeed, `_send_discord_alerts` makes only one HTTP call — the
failure of the first call aborts the remaining call of the batch. -/
theorem C3_webhook_abort_cex :
    send_discord_alerts [false, true] = (false, 1) ∧ (1 : Nat) ≠ 2 := by
  constructor
  · rfl
  · decide

/-- C3 amended: webhook delivery makes one sequential network call per alert
event only up to and including the first failing call; a failure aborts the
remaining calls (the `try` wraps the whole loop) and the channel reports
failure.  When every call succeeds there is exactly one call per event. -/
theorem C3_webhook_sequential_until_failure (outcomes : List Bool) :
    (send_discord_alerts outcomes).1 = outcomes.all id
    ∧ (send_discord_alerts outcomes).2
        = (if outcomes.all id = true then outcomes.length
           else (outcomes.takeWhile id).length + 1) := by
  induction outcomes with
  | nil => simp [send_discord_alerts]
  | cons b rest ih =>
    cases b
    · simp [send_discord_alerts]
    · refine ⟨by simpa [send_discord_alerts] using ih.1, ?_⟩
      by_cases hall : rest.all id = true
      · simp [send_discord_alerts, ih.2, hall]
      · rw [Bool.not_eq_true] at hall
        simp [send_discord_alerts, ih.2, hall, List.takeWhile_cons]

/-- C4 counterexample: against the upstream response stream 429, 429, 200 the
fetch layer issues three HTTP requests, i.e. two cooldown-and-retries — not
exactly one. -/
theorem C4_retry_cex :
    make_request [UpstreamResp.rateLimited, UpstreamResp.rateLimited,
      UpstreamResp.okJson] = (FetchOutcome.success, 3) ∧ ¬((3 : Nat) ≤ 2) := by
  constructor
  · rfl
  · decide

/-- C4 amended: every 429 response triggers a further cooldown-and-retry,
with no bound on the retry count: k consecutive 429s followed by a success
produce k + 1 requests, and a stream of k straight 429s is consumed entirely
with the call still unreturned — the fetch does not terminate while the
upstream keeps answering 429. -/
theorem C4_unbounded_retry (k : Nat) :
    make_request (List.replicate k UpstreamResp.rateLimited
        ++ [UpstreamResp.okJson])
      = (FetchOutcome.success, k + 1)
    ∧ make_request (List.replicate k UpstreamResp.rateLimited)
      = (FetchOutcome.exhausted, k) := by
  induction k with
  | zero => simp [make_request]
  | succ m ih =>
    simp [List.replicate_succ, make_request, ih.1, ih.2]

/-- C7: a previous price (resp. tvl) value that is 0 or absent makes the
corresponding metric check return no alert — the truthiness guard suppresses
the comparison, so no division by zero is ever attempted. -/
theorem C7_divzero_guard (th : ℚ) (name : String) (prev curr : ProtocolData) :
    ((prev.price = none ∨ prev.price = some 0) →
       check_price_change th name prev curr = none)
    ∧ ((prev.tvl = none ∨ prev.tvl = some 0) →
       check_tvl_change th name prev curr = none) := by
  constructor <;> rintro (h | h) <;>
    simp [check_price_change, check_tvl_change, truthy, h]

/-- C7 witness: concrete absent previous price and zero previous tvl, with a
huge current move, produce no alert. -/
theorem C7_divzero_guard_witness :
    check_price_change 5 "aave"
      ⟨some "aave", none, some 0, none⟩ ⟨some "aave", some 9999, some 8888, none⟩
        = none
    ∧ check_tvl_change 10 "aave"
      ⟨some "aave", none, some 0, none⟩ ⟨some "aave", some 9999, some 8888, none⟩
        = none :=
  ⟨(C7_divzero_guard 5 "aave" ⟨some "aave", none, some 0, none⟩
      ⟨some "aave", some 9999, some 8888, none⟩).1 (Or.inl rfl),
   (C7_divzero_guard 10 "aave" ⟨some "aave", none, some 0, none⟩
      ⟨some "aave", some 9999, some 8888, none⟩).2 (Or.inr rfl)⟩

/-- C10: with alerting disabled, `check_alerts` returns an empty alert list
and the `previous_data` state unchanged, for every input batch. -/
theorem C10_disabled_noop (cfg : AlertsConfig) (s : PrevData)
    (batch : List ProtocolData) (h : cfg.enabled = false) :
    check_alerts cfg s batch = Except.ok ([], s) := by
  simp [check_alerts, h]

/-- C10 witness: a disabled configuration on a nonempty batch and nonempty
state returns an empty list and the state untouched. -/
theorem C10_disabled_noop_witness :
    check_alerts ⟨false, 5, 10, 1, true, false, false⟩
      [("aave", ⟨some "aave", some 100, none, none⟩)]
      [⟨some "aave", some 200, none, none⟩]
      = Except.ok ([], [("aave", ⟨some "aave", some 100, none, none⟩)]) :=
  C10_disabled_noop _ _ _ rfl

end DefiMonitor

namespace DefiMonitor

/-- C5 counterexample: previous price 100 and current price 0 are both
present, the previous value is nonzero and the percent delta (−100%) is far
beyond the threshold 5, yet no alert is emitted — the truthiness guard also
requires the current value to be nonzero. -/
theorem C5_boundary_cex :
    check_price_change 5 "aave" ⟨some "aave", some 100, none, none⟩
        ⟨some "aave", some 0, none, none⟩ = none
    ∧ ((100 : ℚ) ≠ 0)
    ∧ ((5 : ℚ) ≤ |((0 : ℚ) - 100) / 100 * 100|) := by
  refine ⟨?_, by norm_num, by norm_num⟩
  norm_num [check_price_change, truthy]

/-- C5 amended: when both values are present and BOTH are nonzero (a zero
current value also suppresses the check, via Python truthiness), a price
(resp. tvl) alert is emitted iff the absolute percent delta
(current − previous)/previous × 100 is ≥ the configured threshold; the
boundary is inclusive. -/
theorem C5_inclusive_threshold (th : ℚ) (name : String)
    (prev curr : ProtocolData) :
    (∀ p c, prev.price = some p → curr.price = some c → p ≠ 0 → c ≠ 0 →
       ((check_price_change th name prev curr).isSome = true
         ↔ th ≤ |(c - p) / p * 100|))
    ∧ (∀ p c, prev.tvl = some p → curr.tvl = some c → p ≠ 0 → c ≠ 0 →
       ((check_tvl_change th name prev curr).isSome = true
         ↔ th ≤ |(c - p) / p * 100|)) := by
  constructor <;> intro p c hp hc hp0 hc0
  · simp only [check_price_change, hp, hc, truthy, Option.getD_some]
    simp only [decide_not, hp0, hc0, decide_False, Bool.not_false, Bool.and_self,
      if_true]
    split <;> simp_all
  · simp only [check_tvl_change, hp, hc, truthy, Option.getD_some]
    simp only [decide_not, hp0, hc0, decide_False, Bool.not_false, Bool.and_self,
      if_true]
    split <;> simp_all

/-- C5 witness: a delta exactly equal to the threshold (price: 100 → 105 at
threshold 5; tvl: 1000 → 1100 at threshold 10) fires the alert — the
boundary is inclusive. -/
theorem C5_inclusive_threshold_witness :
    ((check_price_change 5 "aave" ⟨some "aave", some 100, some 1000, none⟩
        ⟨some "aave", some 105, some 1100, none⟩).isSome = true
      ↔ (5 : ℚ) ≤ |((105 : ℚ) - 100) / 100 * 100|)
    ∧ ((check_tvl_change 10 "aave" ⟨some "aave", some 100, some 1000, none⟩
        ⟨some "aave", some 105, some 1100, none⟩).isSome = true
      ↔ (10 : ℚ) ≤ |((1100 : ℚ) - 1000) / 1000 * 100|) :=
  ⟨(C5_inclusive_threshold 5 "aave" ⟨some "aave", some 100, some 1000, none⟩
      ⟨some "aave", some 105, some 1100, none⟩).1 100 105 rfl rfl
      (by norm_num) (by norm_num),
   (C5_inclusive_threshold 10 "aave" ⟨some "aave", some 100, some 1000, none⟩
      ⟨some "aave", some 105, some 1100, none⟩).2 1000 1100 rfl rfl
      (by norm_num) (by norm_num)⟩

/-- C2 counterexample: with a configured price threshold of 3, a delta of 8%
(100 → 108) is at least twice the configured threshold, yet the emitted
alert's severity is MEDIUM, not HIGH — the HIGH cutoff is the hardcoded 10,
not 2 × the configured threshold. -/
theorem C2_severity_cex :
    check_price_change 3 "aave" ⟨some "aave", some 100, none, none⟩
        ⟨some "aave", some 108, none, none⟩
      = some ⟨Metric.price, "aave", Severity.MEDIUM, true, 100, 108⟩
    ∧ ((2 * 3 : ℚ) ≤ |((108 : ℚ) - 100) / 100 * 100|)
    ∧ Severity.MEDIUM ≠ Severity.HIGH := by
  refine ⟨?_, by norm_num, by decide⟩
  norm_num [check_price_change, truthy]

/-- C2 amended: a fired price alert is HIGH iff the absolute percent delta is
at least the hardcoded 10 (= 2 × the DEFAULT price threshold), a fired tvl
alert is HIGH iff the delta is at least the hardcoded 20 (= 2 × the DEFAULT
tvl threshold) — independent of the configured threshold, which only bounds
the delta from below — and an apy alert is always MEDIUM. -/
theorem C2_severity_cutoffs (th : ℚ) (name : String) (prev curr : ProtocolData) :
    (∀ a, check_price_change th name prev curr = some a →
       ((a.severity = Severity.HIGH
          ↔ 10 ≤ |(a.currValue - a.prevValue) / a.prevValue * 100|)
        ∧ th ≤ |(a.currValue - a.prevValue) / a.prevValue * 100|))
    ∧ (∀ a, check_tvl_change th name prev curr = some a →
       ((a.severity = Severity.HIGH
          ↔ 20 ≤ |(a.currValue - a.prevValue) / a.prevValue * 100|)
        ∧ th ≤ |(a.currValue - a.prevValue) / a.prevValue * 100|))
    ∧ (∀ a, check_apy_change th name prev curr = some a →
       a.severity = Severity.MEDIUM) := by
  refine ⟨?_, ?_, ?_⟩ <;> intro a h
  · simp only [check_price_change] at h
    split at h
    · split at h
      · rename_i hth
        cases h
        refine ⟨?_, hth⟩
        split <;> rename_i h10 <;> simp [h10]
      · cases h
    · cases h
  · simp only [check_tvl_change] at h
    split at h
    · split at h
      · rename_i hth
        cases h
        refine ⟨?_, hth⟩
        split <;> rename_i h20 <;> simp [h20]
      · cases h
    · cases h
  · simp only [check_apy_change] at h
    split at h
    · split at h
      · cases h; rfl
      · cases h
    · cases h

/-- C2 witness: a 20% price move (100 → 120) at threshold 5 fires a HIGH
alert, agreeing with the 10-percent hardcoded cutoff. -/
theorem C2_severity_cutoffs_witness :
    ((Alert.severity ⟨Metric.price, "aave", Severity.HIGH, true, 100, 120⟩
        = Severity.HIGH
      ↔ (10 : ℚ) ≤ |((120 : ℚ) - 100) / 100 * 100|)
     ∧ (5 : ℚ) ≤ |((120 : ℚ) - 100) / 100 * 100|) :=
  (C2_severity_cutoffs 5 "aave" ⟨some "aave", some 100, none, none⟩
      ⟨some "aave", some 120, none, none⟩).1
    ⟨Metric.price, "aave", Severity.HIGH, true, 100, 120⟩
    (by norm_num [check_price_change, truthy])

end DefiMonitor

namespace DefiMonitor

/-- If some entry of the batch lacks the `name` key, the comparison loop
raises. -/
theorem checkAlertsLoop_error_of_noname (cfg : AlertsConfig) (pd : ProtocolData)
    (hname : pd.name = none) :
    ∀ batch : List ProtocolData, pd ∈ batch →
      ∀ s : PrevData, ∃ e, checkAlertsLoop cfg s batch = Except.error e := by
  intro batch
  induction batch with
  | nil => intro h; cases h
  | cons x rest ih =>
    intro hmem s
    rcases List.mem_cons.mp hmem with rfl | hmem'
    · exact ⟨"KeyError: 'name'", by simp [checkAlertsLoop, hname]⟩
    · cases hx : x.name with
      | none => exact ⟨"KeyError: 'name'", by simp [checkAlertsLoop, hx]⟩
      | some n =>
        cases hl : lookupPrev s n with
        | none =>
          obtain ⟨e, he⟩ := ih hmem' (insertPrev s n x)
          exact ⟨e, by simp [checkAlertsLoop, hx, hl, he]⟩
        | some prev =>
          obtain ⟨e, he⟩ := ih hmem' s
          exact ⟨e, by simp [checkAlertsLoop, hx, hl, he]⟩

/-- C1 counterexample: a batch whose first entry lacks the `name` key makes
`check_alerts` raise `KeyError` — the exception escapes, the well-formed
second entry is never processed and no baseline is recorded for it. -/
theorem C1_keyerror_cex :
    check_alerts ⟨true, 5, 10, 1, true, false, false⟩ []
      [⟨none, some 1, some 1, some 1⟩, ⟨some "aave", some 2, none, none⟩]
      = Except.error "KeyError: 'name'" := by
  norm_num [check_alerts, checkAlertsLoop]

/-- C1 amended: with alerting enabled, a batch containing an entry that lacks
its protocol identifier key is NOT skipped: `protocol_data['name']` raises a
`KeyError` that escapes `check_alerts`, aborting the whole batch (no alert
list is returned and the baseline update never runs). -/
theorem C1_keyerror_escapes (cfg : AlertsConfig) (s : PrevData)
    (batch : List ProtocolData) (pd : ProtocolData)
    (hen : cfg.enabled = true) (hmem : pd ∈ batch) (hname : pd.name = none) :
    ∃ e, check_alerts cfg s batch = Except.error e := by
  obtain ⟨e, he⟩ := checkAlertsLoop_error_of_noname cfg pd hname batch hmem s
  exact ⟨e, by simp [check_alerts, hen, he]⟩

/-- C1 witness: the amended theorem applied at the concrete failing batch. -/
theorem C1_keyerror_escapes_witness :
    ∃ e, check_alerts ⟨true, 5, 10, 1, true, false, false⟩ []
      [⟨none, some 1, some 1, some 1⟩, ⟨some "aave", some 2, none, none⟩]
      = Except.error e :=
  C1_keyerror_escapes ⟨true, 5, 10, 1, true, false, false⟩ []
    [⟨none, some 1, some 1, some 1⟩, ⟨some "aave", some 2, none, none⟩]
    ⟨none, some 1, some 1, some 1⟩ rfl (List.mem_cons_self _ _) rfl

/-- C6: the dispatcher's delivered count is the batch size times the number
of enabled channels that fully succeeded (console cannot fail; a failed or
unconfigured channel contributes 0); in particular, with console enabled,
the webhook channel enabled and configured but every webhook call failing,
and email disabled, dispatching N events returns exactly N. -/
theorem C6_delivered_count (cfg : AlertsConfig) (webhookUrl emailTo : String)
    (discordCalls : List Bool) (emailOk : Bool) (alerts : List Alert) :
    send_alerts cfg webhookUrl emailTo discordCalls emailOk alerts
      = alerts.length *
        ((if cfg.console = true then 1 else 0)
         + (if cfg.discord_webhook = true ∧ webhookUrl ≠ ""
                ∧ (send_discord_alerts discordCalls).1 = true then 1 else 0)
         + (if cfg.email = true ∧ emailTo ≠ "" ∧ emailOk = true then 1 else 0))
    ∧ (cfg.console = true → cfg.discord_webhook = true → webhookUrl ≠ "" →
        cfg.email = false →
        send_alerts cfg webhookUrl emailTo (List.replicate alerts.length false)
          emailOk alerts = alerts.length) := by
  constructor
  · cases alerts with
    | nil => simp [send_alerts]
    | cons a as =>
      by_cases h1 : cfg.console = true <;>
      by_cases h2 : cfg.discord_webhook = true <;>
      by_cases h3 : webhookUrl = "" <;>
      by_cases h4 : (send_discord_alerts discordCalls).1 = true <;>
      by_cases h5 : cfg.email = true <;>
      by_cases h6 : emailTo = "" <;>
      by_cases h7 : emailOk = true <;>
      simp [send_alerts, h1, h2, h3, h4, h5, h6, h7] <;> ring
  · intro h1 h2 h3 h4
    cases alerts with
    | nil => simp [send_alerts]
    | cons a as =>
      simp [send_alerts, h1, h2, h3, h4, List.replicate_succ, send_discord_alerts]

/-- C6 witness: two events, console on and succeeding, webhook configured with
both calls failing, email off — the delivered count is exactly 2. -/
theorem C6_delivered_count_witness :
    send_alerts ⟨true, 5, 10, 1, true, true, false⟩ "https://hook" ""
      (List.replicate
        ([⟨Metric.price, "a", Severity.HIGH, true, 1, 2⟩,
          ⟨Metric.tvl, "b", Severity.MEDIUM, false, 3, 4⟩] : List Alert).length
        false)
      false
      [⟨Metric.price, "a", Severity.HIGH, true, 1, 2⟩,
       ⟨Metric.tvl, "b", Severity.MEDIUM, false, 3, 4⟩]
      = ([⟨Metric.price, "a", Severity.HIGH, true, 1, 2⟩,
          ⟨Metric.tvl, "b", Severity.MEDIUM, false, 3, 4⟩] : List Alert).length :=
  (C6_delivered_count ⟨true, 5, 10, 1, true, true, false⟩ "https://hook" ""
      (List.replicate 2 false) false
      [⟨Metric.price, "a", Severity.HIGH, true, 1, 2⟩,
       ⟨Metric.tvl, "b", Severity.MEDIUM, false, 3, 4⟩]).2
    rfl rfl (by simp) rfl

end DefiMonitor

namespace DefiMonitor

/-- Any alert produced by one protocol's three metric checks carries that
protocol's name. -/
theorem here_protocol (cfg : AlertsConfig) (n : String) (prev pd : ProtocolData)
    (a : Alert)
    (h : a ∈ (check_price_change cfg.price_change_threshold n prev pd).toList
          ++ (check_tvl_change cfg.tvl_change_threshold n prev pd).toList
          ++ (check_apy_change cfg.apy_change_threshold n prev pd).toList) :
    a.protocol = n := by
  rcases List.mem_append.mp h with h1 | h1
  · rcases List.mem_append.mp h1 with h2 | h2
    · cases hcp : check_price_change cfg.price_change_threshold n prev pd with
      | none => rw [hcp] at h2; cases h2
      | some b =>
        rw [hcp, Option.toList_some] at h2
        rw [List.mem_singleton.mp h2]
        exact check_price_change_protocol _ _ _ _ b hcp
    · cases hcp : check_tvl_change cfg.tvl_change_threshold n prev pd with
      | none => rw [hcp] at h2; cases h2
      | some b =>
        rw [hcp, Option.toList_some] at h2
        rw [List.mem_singleton.mp h2]
        exact check_tvl_change_protocol _ _ _ _ b hcp
  · cases hcp : check_apy_change cfg.apy_change_threshold n prev pd with
    | none => rw [hcp] at h1; cases h1
    | some b =>
      rw [hcp, Option.toList_some] at h1
      rw [List.mem_singleton.mp h1]
      exact check_apy_change_protocol _ _ _ _ b hcp

/-- Every alert the comparison loop produces is named after some entry of the
batch. -/
theorem checkAlertsLoop_protocols (cfg : AlertsConfig) :
    ∀ (batch : List ProtocolData) (s : PrevData) (as : List Alert)
      (s1 : PrevData),
      checkAlertsLoop cfg s batch = Except.ok (as, s1) →
      ∀ a ∈ as, ∃ e ∈ batch, e.name = some a.protocol := by
  intro batch
  induction batch with
  | nil =>
    intro s as s1 h a ha
    simp only [checkAlertsLoop, Except.ok.injEq, Prod.mk.injEq] at h
    rw [← h.1] at ha
    cases ha
  | cons x rest ih =>
    intro s as s1 h a ha
    cases hx : x.name with
    | none => simp [checkAlertsLoop, hx] at h
    | some n =>
      cases hl : lookupPrev s n with
      | none =>
        simp only [checkAlertsLoop, hx, hl] at h
        obtain ⟨e, he, hen⟩ := ih (insertPrev s n x) as s1 h a ha
        exact ⟨e, List.mem_cons_of_mem _ he, hen⟩
      | some prev =>
        simp only [checkAlertsLoop, hx, hl] at h
        cases hrec : checkAlertsLoop cfg s rest with
        | error er => rw [hrec] at h; cases h
        | ok r =>
          obtain ⟨as', s1'⟩ := r
          rw [hrec] at h
          simp only [Except.ok.injEq, Prod.mk.injEq] at h
          rw [← h.1] at ha
          rcases List.mem_append.mp ha with hh | hh
          · exact ⟨x, List.mem_cons_self _ _,
              by rw [hx, here_protocol cfg n prev x a hh]⟩
          · obtain ⟨e, he, hen⟩ := ih s as' s1' hrec a hh
            exact ⟨e, List.mem_cons_of_mem _ he, hen⟩

/-- If a protocol name is not in the state and occurs at most once in the
batch, the loop produces no alert carrying that name: its single entry (if
any) only records the baseline. -/
theorem checkAlertsLoop_no_alert_of_new (cfg : AlertsConfig) (p : String) :
    ∀ (batch : List ProtocolData) (s : PrevData) (as : List Alert)
      (s1 : PrevData),
      lookupPrev s p = none →
      batch.countP (fun e => decide (e.name = some p)) ≤ 1 →
      checkAlertsLoop cfg s batch = Except.ok (as, s1) →
      ∀ a ∈ as, a.protocol ≠ p := by
  intro batch
  induction batch with
  | nil =>
    intro s as s1 _ _ h a ha
    simp only [checkAlertsLoop, Except.ok.injEq, Prod.mk.injEq] at h
    rw [← h.1] at ha
    cases ha
  | cons x rest ih =>
    intro s as s1 hs hcount h a ha
    cases hx : x.name with
    | none => simp [checkAlertsLoop, hx] at h
    | some n =>
      by_cases hnp : n = p
      · subst hnp
        simp only [checkAlertsLoop, hx, hs] at h
        have hrest0 : ∀ e ∈ rest, e.name ≠ some n := by
          rw [List.countP_cons] at hcount
          have hxd : decide (x.name = some n) = true := by simp [hx]
          rw [hxd, if_pos rfl] at hcount
          have hc0 : rest.countP (fun e => decide (e.name = some n)) = 0 := by
            omega
          intro e he hen
          have := List.countP_eq_zero.mp hc0 e he
          simp [hen] at this
        intro hap
        obtain ⟨e, he, hen⟩ := checkAlertsLoop_protocols cfg rest _ as s1 h a ha
        rw [hap] at hen
        exact hrest0 e he hen
      · cases hl : lookupPrev s n with
        | none =>
          simp only [checkAlertsLoop, hx, hl] at h
          refine ih (insertPrev s n x) as s1 ?_ ?_ h a ha
          · rw [lookupPrev_insertPrev_ne s n p x (Ne.symm hnp)]
            exact hs
          · rw [List.countP_cons] at hcount
            omega
        | some prev =>
          simp only [checkAlertsLoop, hx, hl] at h
          cases hrec : checkAlertsLoop cfg s rest with
          | error er => rw [hrec] at h; cases h
          | ok r =>
            obtain ⟨as', s1'⟩ := r
            rw [hrec] at h
            simp only [Except.ok.injEq, Prod.mk.injEq] at h
            rw [← h.1] at ha
            rcases List.mem_append.mp ha with hh | hh
            · rw [here_protocol cfg n prev x a hh]
              exact hnp
            · refine ih s as' s1' hs ?_ hrec a hh
              rw [List.countP_cons] at hcount
              omega

/-- Splitting a successful `check_alerts` run into its two loops. -/
theorem check_alerts_ok_destruct (cfg : AlertsConfig) (s : PrevData)
    (batch : List ProtocolData) (alerts : List Alert) (s' : PrevData)
    (hen : cfg.enabled = true)
    (h : check_alerts cfg s batch = Except.ok (alerts, s')) :
    ∃ s1, checkAlertsLoop cfg s batch = Except.ok (alerts, s1)
          ∧ updatePrev s1 batch = Except.ok s' := by
  rw [check_alerts, hen] at h
  simp only [if_true] at h
  split at h
  · cases h
  · rename_i as s1 hl
    split at h
    · cases h
    · rename_i s2 hu
      simp only [Except.ok.injEq, Prod.mk.injEq] at h
      obtain ⟨ha, hs⟩ := h
      subst ha
      subst hs
      exact ⟨s1, hl, hu⟩

/-- The baseline-update loop leaves names it never writes untouched. -/
theorem updatePrev_lookup_of_not_mem (n : String) :
    ∀ (batch : List ProtocolData) (s s' : PrevData),
      (∀ e ∈ batch, e.name ≠ some n) →
      updatePrev s batch = Except.ok s' →
      lookupPrev s' n = lookupPrev s n := by
  intro batch
  induction batch with
  | nil =>
    intro s s' _ h
    simp only [updatePrev, Except.ok.injEq] at h
    rw [h]
  | cons x rest ih =>
    intro s s' hne h
    cases hx : x.name with
    | none => simp [updatePrev, hx] at h
    | some m =>
      simp only [updatePrev, hx] at h
      have hmn : m ≠ n := by
        intro hEq
        exact hne x (List.mem_cons_self _ _) (by rw [hx, hEq])
      rw [ih (insertPrev s m x) s' (fun e he => hne e (List.mem_cons_of_mem _ he)) h,
          lookupPrev_insertPrev_ne s m n x (Ne.symm hmn)]

/-- After the baseline-update loop, a name that occurs exactly once in the
batch maps to that single entry. -/
theorem updatePrev_lookup_unique (p : String) (pd : ProtocolData) :
    ∀ (batch : List ProtocolData) (s s' : PrevData),
      batch.filter (fun e => decide (e.name = some p)) = [pd] →
      updatePrev s batch = Except.ok s' →
      lookupPrev s' p = some pd := by
  intro batch
  induction batch with
  | nil => intro s s' hf; simp at hf
  | cons x rest ih =>
    intro s s' hf h
    cases hx : x.name with
    | none => simp [updatePrev, hx] at h
    | some m =>
      simp only [updatePrev, hx] at h
      by_cases hmp : m = p
      · subst hmp
        rw [List.filter_cons, if_pos (by simp [hx])] at hf
        have hxpd : x = pd := (List.cons_eq_cons.mp hf).1
        have hrest : rest.filter (fun e => decide (e.name = some m)) = [] :=
          (List.cons_eq_cons.mp hf).2
        subst hxpd
        have hnotin : ∀ y ∈ rest, y.name ≠ some m := by
          intro y hy hyn
          have : y ∈ rest.filter (fun e => decide (e.name = some m)) :=
            List.mem_filter.mpr ⟨hy, by simp [hyn]⟩
          rw [hrest] at this
          cases this
        rw [updatePrev_lookup_of_not_mem m rest _ _ hnotin h,
            lookupPrev_insertPrev_self]
      · rw [List.filter_cons, if_neg (by simp [hx, hmp])] at hf
        exact ih (insertPrev s m x) s' hf h

end DefiMonitor

namespace DefiMonitor

/-- C8: with alerting enabled, a protocol name absent from the detector state
whose snapshot occurs exactly once in the batch gets no alert in that call's
output, and its snapshot is recorded as the new baseline for the next call. -/
theorem C8_first_seen_baseline (cfg : AlertsConfig) (s : PrevData)
    (batch : List ProtocolData) (alerts : List Alert) (s' : PrevData)
    (p : String) (pd : ProtocolData)
    (hen : cfg.enabled = true)
    (hnew : lookupPrev s p = none)
    (hone : batch.filter (fun e => decide (e.name = some p)) = [pd])
    (hok : check_alerts cfg s batch = Except.ok (alerts, s')) :
    (∀ a ∈ alerts, a.protocol ≠ p) ∧ lookupPrev s' p = some pd := by
  obtain ⟨s1, hloop, hupd⟩ := check_alerts_ok_destruct cfg s batch alerts s' hen hok
  constructor
  · refine checkAlertsLoop_no_alert_of_new cfg p batch s alerts s1 hnew ?_ hloop
    rw [List.countP_eq_length_filter, hone]
    simp
  · exact updatePrev_lookup_unique p pd batch s1 s' hone hupd

/-- C8 witness: an empty state and a single fresh snapshot yield no alert and
the snapshot becomes the baseline. -/
theorem C8_first_seen_baseline_witness :
    (∀ a ∈ ([] : List Alert), a.protocol ≠ "aave")
    ∧ lookupPrev [("aave", ⟨some "aave", some 100, none, none⟩)] "aave"
        = some ⟨some "aave", some 100, none, none⟩ :=
  C8_first_seen_baseline ⟨true, 5, 10, 1, true, false, false⟩ []
    [⟨some "aave", some 100, none, none⟩] []
    [("aave", ⟨some "aave", some 100, none, none⟩)]
    "aave" ⟨some "aave", some 100, none, none⟩
    rfl rfl (by simp)
    (by norm_num [check_alerts, checkAlertsLoop, updatePrev, insertPrev,
      lookupPrev])

/-- A successful comparison loop implies every batch entry had its name key. -/
theorem checkAlertsLoop_ok_names (cfg : AlertsConfig) :
    ∀ (batch : List ProtocolData) (s : PrevData)
      (r : List Alert × PrevData),
      checkAlertsLoop cfg s batch = Except.ok r →
      ∀ e ∈ batch, e.name.isSome = true := by
  intro batch
  induction batch with
  | nil => intro s r _ e he; cases he
  | cons x rest ih =>
    intro s r h e he
    cases hx : x.name with
    | none => simp [checkAlertsLoop, hx] at h
    | some n =>
      rcases List.mem_cons.mp he with rfl | he'
      · simp [hx]
      · cases hl : lookupPrev s n with
        | none =>
          simp only [checkAlertsLoop, hx, hl] at h
          exact ih (insertPrev s n x) r h e he'
        | some prev =>
          simp only [checkAlertsLoop, hx, hl] at h
          cases hrec : checkAlertsLoop cfg s rest with
          | error er => rw [hrec] at h; cases h
          | ok r' => exact ih s r' hrec e he'

/-- After the baseline-update loop over a batch with pairwise-distinct names,
every entry's name maps to that entry. -/
theorem updatePrev_lookup_nodup :
    ∀ (batch : List ProtocolData) (s s' : PrevData),
      (batch.filterMap (fun e => e.name)).Nodup →
      updatePrev s batch = Except.ok s' →
      ∀ e ∈ batch, ∀ n, e.name = some n → lookupPrev s' n = some e := by
  intro batch
  induction batch with
  | nil => intro s s' _ _ e he; cases he
  | cons x rest ih =>
    intro s s' hnd h e he n hen
    cases hx : x.name with
    | none => simp [updatePrev, hx] at h
    | some m =>
      simp only [updatePrev, hx] at h
      rw [List.filterMap_cons, hx] at hnd
      have hm_notin : m ∉ rest.filterMap (fun e => e.name) :=
        (List.nodup_cons.mp hnd).1
      have hnd' : (rest.filterMap (fun e => e.name)).Nodup :=
        (List.nodup_cons.mp hnd).2
      rcases List.mem_cons.mp he with rfl | he'
      · have hmn : m = n := by
          rw [hx] at hen
          exact Option.some.inj hen
        subst hmn
        have hnotin : ∀ y ∈ rest, y.name ≠ some m := by
          intro y hy hyn
          exact hm_notin (List.mem_filterMap.mpr ⟨y, hy, hyn⟩)
        rw [updatePrev_lookup_of_not_mem m rest _ _ hnotin h,
            lookupPrev_insertPrev_self]
      · exact ih (insertPrev s m x) s' hnd' h e he' n hen

/-- Comparing a batch in which every entry is already its own recorded
baseline produces no alerts and leaves the state unchanged (positive
thresholds: the deltas are all zero). -/
theorem checkAlertsLoop_self (cfg : AlertsConfig)
    (hp : 0 < cfg.price_change_threshold) (ht : 0 < cfg.tvl_change_threshold)
    (hy : 0 < cfg.apy_change_threshold) :
    ∀ (batch : List ProtocolData) (s : PrevData),
      (∀ e ∈ batch, ∃ n, e.name = some n ∧ lookupPrev s n = some e) →
      checkAlertsLoop cfg s batch = Except.ok ([], s) := by
  intro batch
  induction batch with
  | nil => intro s _; rfl
  | cons x rest ih =>
    intro s hmem
    obtain ⟨n, hx, hl⟩ := hmem x (List.mem_cons_self _ _)
    have hrest := fun e he => hmem e (List.mem_cons_of_mem _ he)
    simp only [checkAlertsLoop, hx, hl]
    rw [ih s hrest]
    simp [check_price_change_self _ _ _ hp, check_tvl_change_self _ _ _ ht,
      check_apy_change_self _ _ _ hy]

end DefiMonitor

namespace DefiMonitor

/-- C9 counterexample: with a configured price threshold of 0, two identical
calls do NOT make the second one silent — the zero delta still satisfies
|0| ≥ 0, so the second call emits a price alert. -/
theorem C9_idempotent_cex :
    check_alerts ⟨true, 0, 10, 1, true, false, false⟩ []
      [⟨some "aave", some 100, none, none⟩]
      = Except.ok ([], [("aave", ⟨some "aave", some 100, none, none⟩)])
    ∧ check_alerts ⟨true, 0, 10, 1, true, false, false⟩
      [("aave", ⟨some "aave", some 100, none, none⟩)]
      [⟨some "aave", some 100, none, none⟩]
      = Except.ok ([⟨Metric.price, "aave", Severity.MEDIUM, false, 100, 100⟩],
                   [("aave", ⟨some "aave", some 100, none, none⟩)])
    ∧ ([⟨Metric.price, "aave", Severity.MEDIUM, false, 100, 100⟩] : List Alert)
        ≠ [] := by
  refine ⟨?_, ?_, by simp⟩
  · norm_num [check_alerts, checkAlertsLoop, updatePrev, insertPrev, lookupPrev]
  · norm_num [check_alerts, checkAlertsLoop, updatePrev, insertPrev, lookupPrev,
      check_price_change, check_tvl_change, check_apy_change, truthy]

/-- C9 amended: provided each configured threshold is positive and the batch's
protocol identifiers are pairwise distinct, calling `check_alerts` and then
calling it again with an identical batch yields zero alerts on the second
call — the first call overwrote every baseline with the current snapshot, so
the second call's deltas are all zero. -/
theorem C9_idempotent (cfg : AlertsConfig) (s : PrevData)
    (batch : List ProtocolData) (a1 a2 : List Alert) (s1 s2 : PrevData)
    (hp : 0 < cfg.price_change_threshold)
    (ht : 0 < cfg.tvl_change_threshold)
    (hy : 0 < cfg.apy_change_threshold)
    (hnd : (batch.filterMap (fun e => e.name)).Nodup)
    (h1 : check_alerts cfg s batch = Except.ok (a1, s1))
    (h2 : check_alerts cfg s1 batch = Except.ok (a2, s2)) :
    a2 = [] := by
  by_cases hen : cfg.enabled = true
  · obtain ⟨t1, hloop1, hupd1⟩ := check_alerts_ok_destruct cfg s batch a1 s1 hen h1
    have hlook := updatePrev_lookup_nodup batch t1 s1 hnd hupd1
    have hmem : ∀ e ∈ batch, ∃ n, e.name = some n ∧ lookupPrev s1 n = some e := by
      intro e he
      obtain ⟨n, hn⟩ := Option.isSome_iff_exists.mp
        (checkAlertsLoop_ok_names cfg batch s (a1, t1) hloop1 e he)
      exact ⟨n, hn, hlook e he n hn⟩
    have hloop2 : checkAlertsLoop cfg s1 batch = Except.ok ([], s1) :=
      checkAlertsLoop_self cfg hp ht hy batch s1 hmem
    obtain ⟨t2, hloop2', _⟩ := check_alerts_ok_destruct cfg s1 batch a2 s2 hen h2
    rw [hloop2] at hloop2'
    simp only [Except.ok.injEq, Prod.mk.injEq] at hloop2'
    exact hloop2'.1.symm
  · rw [Bool.not_eq_true] at hen
    rw [check_alerts, hen] at h2
    simp only [Bool.false_eq_true, if_false, Except.ok.injEq, Prod.mk.injEq] at h2
    exact h2.1.symm

/-- C9 witness: two identical calls at the default thresholds — the second
call returns no alerts. -/
theorem C9_idempotent_witness :
    check_alerts ⟨true, 5, 10, 1, true, false, false⟩ []
      [⟨some "aave", some 100, some 1000, some 3⟩]
      = Except.ok ([], [("aave", ⟨some "aave", some 100, some 1000, some 3⟩)])
    ∧ check_alerts ⟨true, 5, 10, 1, true, false, false⟩
      [("aave", ⟨some "aave", some 100, some 1000, some 3⟩)]
      [⟨some "aave", some 100, some 1000, some 3⟩]
      = Except.ok ([], [("aave", ⟨some "aave", some 100, some 1000, some 3⟩)])
    ∧ ([] : List Alert) = [] := by
  refine ⟨?_, ?_, ?_⟩
  · norm_num [check_alerts, checkAlertsLoop, updatePrev, insertPrev, lookupPrev]
  · norm_num [check_alerts, checkAlertsLoop, updatePrev, insertPrev, lookupPrev,
      check_price_change, check_tvl_change, check_apy_change, truthy]
  · exact C9_idempotent ⟨true, 5, 10, 1, true, false, false⟩ []
      [⟨some "aave", some 100, some 1000, some 3⟩] [] []
      [("aave", ⟨some "aave", some 100, some 1000, some 3⟩)]
      [("aave", ⟨some "aave", some 100, some 1000, some 3⟩)]
      (by norm_num) (by norm_num) (by norm_num) (by simp)
      (by norm_num [check_alerts, checkAlertsLoop, updatePrev, insertPrev,
        lookupPrev])
      (by norm_num [check_alerts, checkAlertsLoop, updatePrev, insertPrev,
        lookupPrev, check_price_change, check_tvl_change, check_apy_change,
        truthy])

end DefiMonitor
